import Mathlib

/-!
Verification of the namespace-pinning core of `pinns` against its
specification.  The data model and operations below are a shallow
embedding of `src/config.rs` and `src/lib.rs`:

* paths are lists of components, the filesystem is an association list
  from paths to entries plus a record of the bind mounts performed;
* `Config` mirrors the `Config` struct of `config.rs` (request booleans,
  target directory, file name, and the `Namespaces` registry);
* `Config.validate` mirrors `Config::validate`, returning the mutated
  configuration, the resulting filesystem, the list of directories it
  created and an optional error;
* `Pinns.unshare` / `Pinns.bind_namespaces` / `Pinns.bind_namespace`
  mirror the corresponding methods of `lib.rs`, with the kernel's answer
  to a mount request abstracted as an oracle on the target path.
-/

/-- A filesystem path, as its list of components. -/
abbrev FsPath := List String

/-- A filesystem entry is either a directory or a regular file. -/
inductive Entry
  | dir
  | file
deriving DecidableEq, Repr

/-- Filesystem state: an association list from paths to entries, plus the
list of bind mounts performed so far as (source, target) pairs. -/
structure Fs where
  entries : List (FsPath × Entry)
  mounts : List (FsPath × FsPath)
deriving DecidableEq, Repr

/-- Look up the entry at a path (first binding wins, as later writes are
consed onto the front). -/
def Fs.lookup (fs : Fs) (p : FsPath) : Option Entry :=
  (fs.entries.find? (fun e => decide (e.1 = p))).map (fun e => e.2)

/-- Whether some entry occupies the path (Rust `FsPath::exists`). -/
def Fs.pathExists (fs : Fs) (p : FsPath) : Bool :=
  (fs.lookup p).isSome

/-- Create a directory at a path (Rust `fs::create_dir`; in the program it
is only invoked after an existence check found the path absent). -/
def Fs.create_dir (fs : Fs) (p : FsPath) : Fs :=
  { fs with entries := (p, Entry.dir) :: fs.entries }

/-- Create an empty regular file at a path (the `O_CREAT` part of the
exclusive open in `bind_namespace`; only invoked when the path is absent). -/
def Fs.create_file (fs : Fs) (p : FsPath) : Fs :=
  { fs with entries := (p, Entry.file) :: fs.entries }

/-- Record a successful bind mount of `src` onto `tgt`. -/
def Fs.addMount (fs : Fs) (src tgt : FsPath) : Fs :=
  { fs with mounts := (src, tgt) :: fs.mounts }

/-- Linux clone flag CLONE_NEWCGROUP. -/
def CLONE_NEWCGROUP : Nat := 0x02000000
/-- Linux clone flag CLONE_NEWIPC. -/
def CLONE_NEWIPC : Nat := 0x08000000
/-- Linux clone flag CLONE_NEWNET. -/
def CLONE_NEWNET : Nat := 0x40000000
/-- Linux clone flag CLONE_NEWPID. -/
def CLONE_NEWPID : Nat := 0x20000000
/-- Linux clone flag CLONE_NEWUSER. -/
def CLONE_NEWUSER : Nat := 0x10000000
/-- Linux clone flag CLONE_NEWUTS. -/
def CLONE_NEWUTS : Nat := 0x04000000

/-- One namespace descriptor of the registry (`struct Namespace` in
config.rs): its `/proc/self/ns` name, its clone flag, and whether the
current run requests it. -/
structure Namespace where
  name : String
  clone_flag : Nat
  enabled : Bool
deriving DecidableEq, Repr

/-- The namespace registry (`struct Namespaces` in config.rs): one
descriptor per supported kind.  There is no field for the user namespace. -/
structure Namespaces where
  cgroup : Namespace
  ipc : Namespace
  net : Namespace
  pid : Namespace
  uts : Namespace
deriving DecidableEq, Repr

/-- `Default for Namespaces` from config.rs: every descriptor disabled. -/
def Namespaces.default : Namespaces where
  cgroup := { name := "cgroup", clone_flag := CLONE_NEWCGROUP, enabled := false }
  ipc := { name := "ipc", clone_flag := CLONE_NEWIPC, enabled := false }
  net := { name := "net", clone_flag := CLONE_NEWNET, enabled := false }
  pid := { name := "pid", clone_flag := CLONE_NEWPID, enabled := false }
  uts := { name := "uts", clone_flag := CLONE_NEWUTS, enabled := false }

/-- `IntoIterator for &Namespaces` from config.rs: the descriptors in
declaration order. -/
def Namespaces.intoIter (ns : Namespaces) : List Namespace :=
  [ns.cgroup, ns.ipc, ns.net, ns.pid, ns.uts]

/-- The `Config` struct of config.rs: the request boolean per supported
kind, the target directory, the pin file name, and the registry.  The
`log_level` field is irrelevant to the core and omitted. -/
structure Config where
  dir : FsPath
  filename : String
  cgroup : Bool
  ipc : Bool
  net : Bool
  pid : Bool
  uts : Bool
  namespaces : Namespaces
deriving DecidableEq, Repr

/-- lib.rs reads a `user` request flag from the configuration
(`self.config.user()`), but the `Config` struct in config.rs declares no
`user` field or getter, so no obtainable configuration requests the user
namespace; the read is modelled as constantly `false`. -/
def Config.user (_ : Config) : Bool := false

/-- `Config::parent_dir_for_namespace` from config.rs:
`self.dir().join(format!("{}ns", name))`. -/
def Config.parent_dir_for_namespace (c : Config) (name : String) : FsPath :=
  c.dir ++ [name ++ "ns"]

/-- The first statements of `Config::validate`: copy each request boolean
into the `enabled` flag of its registry descriptor. -/
def Config.setEnabled (c : Config) : Config :=
  { c with
    namespaces :=
      { cgroup := { c.namespaces.cgroup with enabled := c.cgroup }
        ipc := { c.namespaces.ipc with enabled := c.ipc }
        net := { c.namespaces.net with enabled := c.net }
        pid := { c.namespaces.pid with enabled := c.pid }
        uts := { c.namespaces.uts with enabled := c.uts } } }

/-- Errors raised by `Config::validate` (the `bail!` sites of config.rs). -/
inductive ValidateError
  | noNamespace
  | dirMissing
  | dirNotDir
  | parentNotDir (name : String)
deriving DecidableEq, Repr

/-- Result of `Config::validate`: the configuration (mutated in place in
Rust, hence always returned), the filesystem, the list of per-kind
subdirectories the call created, and an optional error. -/
structure ValidateResult where
  config : Config
  fs : Fs
  created : List FsPath
  err : Option ValidateError
deriving DecidableEq, Repr

/-- The per-kind loop at the end of `Config::validate`: for each enabled
descriptor, create its parent directory when absent, or fail when the
existing entry is not a directory. -/
def validateLoop (c : Config) : List Namespace → Fs → List FsPath →
    Fs × List FsPath × Option ValidateError
  | [], fs, created => (fs, created, none)
  | ns :: rest, fs, created =>
    if fs.pathExists (c.parent_dir_for_namespace ns.name) = false then
      validateLoop c rest (fs.create_dir (c.parent_dir_for_namespace ns.name))
        (created ++ [c.parent_dir_for_namespace ns.name])
    else if fs.lookup (c.parent_dir_for_namespace ns.name) ≠ some Entry.dir then
      (fs, created, some (ValidateError.parentNotDir ns.name))
    else
      validateLoop c rest fs created

/-- `Config::validate` from config.rs.  The request booleans are copied
into the registry first; then the emptiness, directory-existence and
directory-kind checks run, and finally the per-kind subdirectory loop. -/
def Config.validate (c : Config) (fs : Fs) : ValidateResult :=
  if c.setEnabled.namespaces.intoIter.all (fun x => !x.enabled) then
    ⟨c.setEnabled, fs, [], some ValidateError.noNamespace⟩
  else if fs.pathExists c.setEnabled.dir = false then
    ⟨c.setEnabled, fs, [], some ValidateError.dirMissing⟩
  else if fs.lookup c.setEnabled.dir ≠ some Entry.dir then
    ⟨c.setEnabled, fs, [], some ValidateError.dirNotDir⟩
  else
    match validateLoop c.setEnabled
        (c.setEnabled.namespaces.intoIter.filter (fun x => x.enabled)) fs [] with
    | (fs2, created2, err2) => ⟨c.setEnabled, fs2, created2, err2⟩

/-- Errors of `Pinns::bind_namespace` in lib.rs: the exclusive create can
fail because the target already exists, and the bind mount can fail. -/
inductive BindError
  | alreadyExists
  | mountFailed
deriving DecidableEq, Repr

/-- The `/proc/self/ns/<name>` source path mounted by `bind_namespace`. -/
def nsPath (name : String) : FsPath :=
  ["proc", "self", "ns", name]

/-- The bind target computed by `Pinns::bind_namespace` in lib.rs:
`self.config.dir().join(name)`. -/
def Pinns.bindPath (c : Config) (name : String) : FsPath :=
  c.dir ++ [name]

/-- `Pinns::bind_namespace` from lib.rs: open the bind target with
`O_CREAT | O_EXCL` (fails when any entry already occupies the path),
then bind-mount `/proc/self/ns/<name>` onto it.  The kernel's answer to
the mount request is abstracted as the oracle `mountOk` on the target
path; the created file persists when the mount fails.  Creation failures
other than pre-existence are environmental and not modelled. -/
def Pinns.bind_namespace (c : Config) (mountOk : FsPath → Bool)
    (name : String) (fs : Fs) : Fs × Option BindError :=
  if fs.pathExists (Pinns.bindPath c name) then
    (fs, some BindError.alreadyExists)
  else if mountOk (Pinns.bindPath c name) then
    ((fs.create_file (Pinns.bindPath c name)).addMount
      (nsPath name) (Pinns.bindPath c name), none)
  else
    (fs.create_file (Pinns.bindPath c name), some BindError.mountFailed)

/-- The fixed declaration order in which lib.rs tests the per-kind request
flags, both in `unshare` and in `bind_namespaces`. -/
def declOrder : List String :=
  ["cgroup", "ipc", "net", "pid", "user", "uts"]

/-- The request flag lib.rs reads for each kind name. -/
def Config.flagOf (c : Config) (name : String) : Bool :=
  if name = "cgroup" then c.cgroup
  else if name = "ipc" then c.ipc
  else if name = "net" then c.net
  else if name = "pid" then c.pid
  else if name = "user" then c.user
  else if name = "uts" then c.uts
  else false

/-- The sequence of kind names whose bind is attempted by
`Pinns::bind_namespaces` (the chain of `if` statements of lib.rs, in
order cgroup, ipc, net, pid, user, uts, keeping the requested ones). -/
def Pinns.bindSeq (c : Config) : List String :=
  declOrder.filter (fun n => c.flagOf n)

/-- Sequential execution of the bind phase over a list of kind names:
each bind runs on the state left by the previous one, and the `?`
operator of Rust aborts the chain at the first error.  Returns the final
filesystem, the list of kinds attempted, and the first failure (failing
kind and error), if any. -/
def Pinns.runBinds (c : Config) (mountOk : FsPath → Bool) :
    List String → Fs → Fs × List String × Option (String × BindError)
  | [], fs => (fs, [], none)
  | n :: rest, fs =>
    match Pinns.bind_namespace c mountOk n fs with
    | (fs1, none) =>
      let r := Pinns.runBinds c mountOk rest fs1
      (r.1, n :: r.2.1, r.2.2)
    | (fs1, some e) => (fs1, [n], some (n, e))

/-- `Pinns::bind_namespaces` from lib.rs: bind every requested kind in
the fixed declaration order, stopping at the first failure. -/
def Pinns.bind_namespaces (c : Config) (mountOk : FsPath → Bool) (fs : Fs) :
    Fs × List String × Option (String × BindError) :=
  Pinns.runBinds c mountOk (Pinns.bindSeq c) fs

/-- The bitmask composed by `Pinns::unshare` in lib.rs: starting from
`CloneFlags::empty()`, OR in the clone flag of every requested kind, in
the fixed declaration order. -/
def Pinns.unshareFlags (c : Config) : Nat :=
  let f := 0
  let f := if c.cgroup then f ||| CLONE_NEWCGROUP else f
  let f := if c.ipc then f ||| CLONE_NEWIPC else f
  let f := if c.net then f ||| CLONE_NEWNET else f
  let f := if c.pid then f ||| CLONE_NEWPID else f
  let f := if c.user then f ||| CLONE_NEWUSER else f
  let f := if c.uts then f ||| CLONE_NEWUTS else f
  f

/-- The unshare syscalls issued by one run of `Pinns::unshare`: exactly
one call, carrying the composed bitmask. -/
def Pinns.unshareCalls (c : Config) : List Nat :=
  [Pinns.unshareFlags c]

/-- The clone flag belonging to each kind name tested in lib.rs. -/
def cloneFlagOf (name : String) : Nat :=
  if name = "cgroup" then CLONE_NEWCGROUP
  else if name = "ipc" then CLONE_NEWIPC
  else if name = "net" then CLONE_NEWNET
  else if name = "pid" then CLONE_NEWPID
  else if name = "user" then CLONE_NEWUSER
  else if name = "uts" then CLONE_NEWUTS
  else 0

/-- A namespace kind as requestable on the command line (config.rs
declares a request flag for exactly these five kinds). -/
inductive Kind
  | cgroup
  | ipc
  | net
  | pid
  | uts
deriving DecidableEq, Repr

/-- Requesting one kind: set its boolean in the configuration, as parsing
the corresponding command-line flag does. -/
def Config.requestKind (c : Config) : Kind → Config
  | Kind.cgroup => { c with cgroup := true }
  | Kind.ipc => { c with ipc := true }
  | Kind.net => { c with net := true }
  | Kind.pid => { c with pid := true }
  | Kind.uts => { c with uts := true }

/-- Requesting a list of kinds in the order given, one flag at a time. -/
def Config.requestList (c : Config) (ks : List Kind) : Config :=
  ks.foldl Config.requestKind c

/-- A configuration with no kind requested, the default registry, and a
placeholder directory and file name. -/
def Config.base : Config where
  dir := ["tmp"]
  filename := "f"
  cgroup := false
  ipc := false
  net := false
  pid := false
  uts := false
  namespaces := Namespaces.default

/-! ### Helper lemmas about the filesystem model -/

/-- Looking up after writing an entry: the new entry shadows, other paths
are unaffected. -/
theorem Fs.lookup_cons (l : List (FsPath × Entry)) (m : List (FsPath × FsPath))
    (q : FsPath) (e : Entry) (p : FsPath) :
    Fs.lookup ⟨(q, e) :: l, m⟩ p = if p = q then some e else Fs.lookup ⟨l, m⟩ p := by
  by_cases h : p = q
  · subst h
    simp [Fs.lookup]
  · have h2 : ¬(q = p) := fun hq => h hq.symm
    simp [Fs.lookup, h, h2]

/-- Looking up after `create_dir`. -/
theorem Fs.lookup_create_dir (fs : Fs) (q p : FsPath) :
    (fs.create_dir q).lookup p = if p = q then some Entry.dir else fs.lookup p :=
  Fs.lookup_cons fs.entries fs.mounts q Entry.dir p

/-- Looking up after `create_file`. -/
theorem Fs.lookup_create_file (fs : Fs) (q p : FsPath) :
    (fs.create_file q).lookup p = if p = q then some Entry.file else fs.lookup p :=
  Fs.lookup_cons fs.entries fs.mounts q Entry.file p

/-- Recording a mount does not change the entries. -/
theorem Fs.lookup_addMount (fs : Fs) (s t p : FsPath) :
    (fs.addMount s t).lookup p = fs.lookup p := rfl

/-! ### Helper lemmas about the validation loop -/

/-- The loop only writes directories, so a path that holds a directory
still holds one afterwards. -/
theorem validateLoop_preserves_dir (c : Config) (ns : List Namespace) :
    ∀ (fs : Fs) (created : List FsPath) (p : FsPath),
      fs.lookup p = some Entry.dir →
      (validateLoop c ns fs created).1.lookup p = some Entry.dir := by
  induction ns with
  | nil => intro fs created p h; simpa [validateLoop] using h
  | cons x rest ih =>
    intro fs created p h
    unfold validateLoop
    by_cases hex : fs.pathExists (c.parent_dir_for_namespace x.name) = false
    · rw [if_pos hex]
      apply ih
      rw [Fs.lookup_create_dir]
      split
      · rfl
      · exact h
    · rw [if_neg hex]
      by_cases hdir : fs.lookup (c.parent_dir_for_namespace x.name) ≠ some Entry.dir
      · rw [if_pos hdir]
        exact h
      · rw [if_neg hdir]
        exact ih fs created p h

/-- When every listed descriptor's parent directory is already a
directory, the loop is a no-op: the check-then-create finds every
directory present and creates nothing. -/
theorem validateLoop_noop (c : Config) (ns : List Namespace) :
    ∀ (fs : Fs) (created : List FsPath),
      (∀ x ∈ ns, fs.lookup (c.parent_dir_for_namespace x.name) = some Entry.dir) →
      validateLoop c ns fs created = (fs, created, none) := by
  induction ns with
  | nil => intro fs created _; rfl
  | cons x rest ih =>
    intro fs created h
    have hx := h x (List.mem_cons_self x rest)
    have hex : ¬(fs.pathExists (c.parent_dir_for_namespace x.name) = false) := by
      simp [Fs.pathExists, hx]
    have hdir : ¬(fs.lookup (c.parent_dir_for_namespace x.name) ≠ some Entry.dir) := by
      simp [hx]
    unfold validateLoop
    rw [if_neg hex, if_neg hdir]
    exact ih fs created (fun y hy => h y (List.mem_cons_of_mem x hy))

/-- On success the loop leaves every listed descriptor's parent
directory present as a directory. -/
theorem validateLoop_ok_dirs (c : Config) (ns : List Namespace) :
    ∀ (fs fs2 : Fs) (created created2 : List FsPath),
      validateLoop c ns fs created = (fs2, created2, none) →
      ∀ x ∈ ns, fs2.lookup (c.parent_dir_for_namespace x.name) = some Entry.dir := by
  induction ns with
  | nil => intro fs fs2 created created2 _ x hx; exact absurd hx (List.not_mem_nil x)
  | cons y rest ih =>
    intro fs fs2 created created2 h x hx
    unfold validateLoop at h
    by_cases hex : fs.pathExists (c.parent_dir_for_namespace y.name) = false
    · rw [if_pos hex] at h
      rcases List.mem_cons.mp hx with hxy | hxr
      · subst hxy
        have hd : (fs.create_dir (c.parent_dir_for_namespace x.name)).lookup
            (c.parent_dir_for_namespace x.name) = some Entry.dir := by
          rw [Fs.lookup_create_dir, if_pos rfl]
        have := validateLoop_preserves_dir c rest
          (fs.create_dir (c.parent_dir_for_namespace x.name))
          (created ++ [c.parent_dir_for_namespace x.name])
          (c.parent_dir_for_namespace x.name) hd
        rw [h] at this
        exact this
      · exact ih _ _ _ _ h x hxr
    · rw [if_neg hex] at h
      by_cases hdir : fs.lookup (c.parent_dir_for_namespace y.name) ≠ some Entry.dir
      · rw [if_pos hdir] at h
        exact absurd (congrArg (fun t => t.2.2) h) (by simp)
      · rw [if_neg hdir] at h
        rcases List.mem_cons.mp hx with hxy | hxr
        · subst hxy
          have hy : fs.lookup (c.parent_dir_for_namespace x.name) = some Entry.dir := by
            exact not_not.mp hdir
          have := validateLoop_preserves_dir c rest fs created
            (c.parent_dir_for_namespace x.name) hy
          rw [h] at this
          exact this
        · exact ih _ _ _ _ h x hxr

/-- The accumulator of created directories only grows. -/
theorem validateLoop_created_extend (c : Config) (ns : List Namespace) :
    ∀ (fs : Fs) (created : List FsPath),
      ∃ t, (validateLoop c ns fs created).2.1 = created ++ t := by
  induction ns with
  | nil => intro fs created; exact ⟨[], by simp [validateLoop]⟩
  | cons x rest ih =>
    intro fs created
    unfold validateLoop
    by_cases hex : fs.pathExists (c.parent_dir_for_namespace x.name) = false
    · rw [if_pos hex]
      rcases ih (fs.create_dir (c.parent_dir_for_namespace x.name))
        (created ++ [c.parent_dir_for_namespace x.name]) with ⟨t, ht⟩
      exact ⟨[c.parent_dir_for_namespace x.name] ++ t, by rw [ht, List.append_assoc]⟩
    · rw [if_neg hex]
      by_cases hdir : fs.lookup (c.parent_dir_for_namespace x.name) ≠ some Entry.dir
      · rw [if_pos hdir]
        exact ⟨[], by simp⟩
      · rw [if_neg hdir]
        exact ih fs created

/-- On success, every listed descriptor whose parent directory was absent
at entry has that directory recorded in the created list: the loop
created it. -/
theorem validateLoop_created_mem (c : Config) (ns : List Namespace) :
    ∀ (fs fs2 : Fs) (created created2 : List FsPath),
      validateLoop c ns fs created = (fs2, created2, none) →
      ∀ x ∈ ns, fs.lookup (c.parent_dir_for_namespace x.name) = none →
        c.parent_dir_for_namespace x.name ∈ created2 := by
  induction ns with
  | nil => intro fs fs2 created created2 _ x hx; exact absurd hx (List.not_mem_nil x)
  | cons y rest ih =>
    intro fs fs2 created created2 h x hx habs
    unfold validateLoop at h
    by_cases hex : fs.pathExists (c.parent_dir_for_namespace y.name) = false
    · rw [if_pos hex] at h
      by_cases hpq : c.parent_dir_for_namespace x.name = c.parent_dir_for_namespace y.name
      · have hmem : c.parent_dir_for_namespace x.name ∈
            created ++ [c.parent_dir_for_namespace y.name] := by
          rw [hpq]; simp
        rcases validateLoop_created_extend c rest
          (fs.create_dir (c.parent_dir_for_namespace y.name))
          (created ++ [c.parent_dir_for_namespace y.name]) with ⟨t, ht⟩
        rw [h] at ht
        simp only at ht
        rw [ht]
        exact List.mem_append_left t hmem
      · rcases List.mem_cons.mp hx with hxy | hxr
        · exact absurd (by rw [hxy]) hpq
        · apply ih _ _ _ _ h x hxr
          rw [Fs.lookup_create_dir, if_neg hpq]
          exact habs
    · rw [if_neg hex] at h
      by_cases hdir : fs.lookup (c.parent_dir_for_namespace y.name) ≠ some Entry.dir
      · rw [if_pos hdir] at h
        exact absurd (congrArg (fun t => t.2.2) h) (by simp)
      · rw [if_neg hdir] at h
        rcases List.mem_cons.mp hx with hxy | hxr
        · subst hxy
          rw [not_not.mp hdir] at habs
          exact absurd habs (by simp)
        · exact ih _ _ _ _ h x hxr habs

/-- When some listed descriptor's parent directory is occupied by a
regular file, the loop fails. -/
theorem validateLoop_file_err (c : Config) (ns : List Namespace) :
    ∀ (fs : Fs) (created : List FsPath) (x : Namespace), x ∈ ns →
      fs.lookup (c.parent_dir_for_namespace x.name) = some Entry.file →
      (validateLoop c ns fs created).2.2 ≠ none := by
  induction ns with
  | nil => intro fs created x hx; exact absurd hx (List.not_mem_nil x)
  | cons y rest ih =>
    intro fs created x hx hfile
    unfold validateLoop
    by_cases hex : fs.pathExists (c.parent_dir_for_namespace y.name) = false
    · rw [if_pos hex]
      have hpq : c.parent_dir_for_namespace x.name ≠ c.parent_dir_for_namespace y.name := by
        intro hpq
        rw [hpq] at hfile
        simp [Fs.pathExists, hfile] at hex
      rcases List.mem_cons.mp hx with hxy | hxr
      · subst hxy; exact absurd rfl hpq
      · apply ih _ _ x hxr
        rw [Fs.lookup_create_dir, if_neg hpq]
        exact hfile
    · rw [if_neg hex]
      by_cases hdir : fs.lookup (c.parent_dir_for_namespace y.name) ≠ some Entry.dir
      · rw [if_pos hdir]
        simp
      · rw [if_neg hdir]
        rcases List.mem_cons.mp hx with hxy | hxr
        · subst hxy
          rw [not_not.mp hdir] at hfile
          exact absurd hfile (by simp)
        · exact ih fs created x hxr hfile

/-! ### Helper lemmas about validate -/

/-- Copying the request booleans twice is the same as copying them once. -/
theorem Config.setEnabled_setEnabled (c : Config) :
    c.setEnabled.setEnabled = c.setEnabled := rfl

/-- Copying the request booleans changes neither the directory nor the
request booleans themselves. -/
theorem Config.setEnabled_fields (c : Config) :
    c.setEnabled.dir = c.dir ∧ c.setEnabled.filename = c.filename ∧
    c.setEnabled.cgroup = c.cgroup ∧ c.setEnabled.ipc = c.ipc ∧
    c.setEnabled.net = c.net ∧ c.setEnabled.pid = c.pid ∧
    c.setEnabled.uts = c.uts :=
  ⟨rfl, rfl, rfl, rfl, rfl, rfl, rfl⟩

/-- Every branch of `validate` returns the flag-updated configuration. -/
theorem Config.validate_config (c : Config) (fs : Fs) :
    (c.validate fs).config = c.setEnabled := by
  unfold Config.validate
  split
  · rfl
  split
  · rfl
  split
  · rfl
  split
  rfl

/-! ### Claim theorems about validation -/

/-- C10: `Config::validate` copies the per-kind request booleans into the
registry descriptors' enabled flags before performing any check, so the
configuration it hands back — whether it reports an error or not — always
carries enabled flags equal to the request booleans; validate never
leaves the configuration state untouched on failure. -/
theorem validate_updates_flags_even_on_error (c : Config) (fs : Fs) :
    (c.validate fs).config = c.setEnabled ∧
    (c.validate fs).config.namespaces.cgroup.enabled = c.cgroup ∧
    (c.validate fs).config.namespaces.ipc.enabled = c.ipc ∧
    (c.validate fs).config.namespaces.net.enabled = c.net ∧
    (c.validate fs).config.namespaces.pid.enabled = c.pid ∧
    (c.validate fs).config.namespaces.uts.enabled = c.uts := by
  refine ⟨Config.validate_config c fs, ?_, ?_, ?_, ?_, ?_⟩ <;>
    rw [Config.validate_config c fs] <;> rfl

/-- C5: a configuration in which no namespace kind is requested fails
validation with the no-namespace configuration error; an empty selection
is never a successful no-op. -/
theorem validate_empty_request_fails (c : Config) (fs : Fs)
    (hcg : c.cgroup = false) (hipc : c.ipc = false) (hnet : c.net = false)
    (hpid : c.pid = false) (huts : c.uts = false) :
    (c.validate fs).err = some ValidateError.noNamespace := by
  have hall : c.setEnabled.namespaces.intoIter.all (fun x => !x.enabled) = true := by
    simp [Config.setEnabled, Namespaces.intoIter, hcg, hipc, hnet, hpid, huts]
  unfold Config.validate
  rw [if_pos hall]

/-- Witness for C5 at a concrete configuration and filesystem. -/
theorem validate_empty_request_fails_witness :
    (Config.base.validate ⟨[(["tmp"], Entry.dir)], []⟩).err =
      some ValidateError.noNamespace :=
  validate_empty_request_fails Config.base ⟨[(["tmp"], Entry.dir)], []⟩
    rfl rfl rfl rfl rfl

/-- C6: for every requested kind, a successful validation leaves the
per-kind subdirectory present as a directory, and records it in the
created list when it was absent beforehand (it was created by the call);
and when the per-kind subdirectory path is occupied by a regular file,
validation fails with a configuration error. -/
theorem validate_parent_dirs (c : Config) (fs : Fs) :
    ((c.validate fs).err = none →
      ∀ x ∈ c.setEnabled.namespaces.intoIter.filter (fun n => n.enabled),
        (c.validate fs).fs.lookup (c.parent_dir_for_namespace x.name) = some Entry.dir ∧
        (fs.lookup (c.parent_dir_for_namespace x.name) = none →
          c.parent_dir_for_namespace x.name ∈ (c.validate fs).created)) ∧
    (∀ x ∈ c.setEnabled.namespaces.intoIter.filter (fun n => n.enabled),
      fs.lookup (c.parent_dir_for_namespace x.name) = some Entry.file →
      (c.validate fs).err ≠ none) := by
  unfold Config.validate
  split
  · exact ⟨fun h => absurd h (by simp), fun x hx hfile => by simp⟩
  split
  · exact ⟨fun h => absurd h (by simp), fun x hx hfile => by simp⟩
  split
  · exact ⟨fun h => absurd h (by simp), fun x hx hfile => by simp⟩
  split
  rename_i fs2 created2 err2 heq
  constructor
  · intro h x hx
    have herr : err2 = none := h
    subst herr
    constructor
    · exact validateLoop_ok_dirs c.setEnabled _ fs fs2 [] created2 heq x hx
    · intro habs
      exact validateLoop_created_mem c.setEnabled _ fs fs2 [] created2 heq x hx habs
  · intro x hx hfile
    have := validateLoop_file_err c.setEnabled _ fs [] x hx hfile
    rw [heq] at this
    exact this

/-- Concrete filesystem holding only the target directory. -/
def fsBase : Fs := ⟨[(["tmp"], Entry.dir)], []⟩

/-- Concrete filesystem where the uts per-kind subdirectory path is
occupied by a regular file. -/
def fsUtsnsFile : Fs := ⟨[(["tmp"], Entry.dir), (["tmp", "utsns"], Entry.file)], []⟩

/-- The ipc descriptor with its enabled flag set. -/
def ipcDescOn : Namespace := { name := "ipc", clone_flag := CLONE_NEWIPC, enabled := true }

/-- The uts descriptor with its enabled flag set. -/
def utsDescOn : Namespace := { name := "uts", clone_flag := CLONE_NEWUTS, enabled := true }

/-- Witness for C6: requesting ipc over an empty target directory leaves
tmp/ipcns as a directory and records it as created; requesting uts while
a file occupies tmp/utsns makes validation fail. -/
theorem validate_parent_dirs_witness :
    (((Config.base.requestList [Kind.ipc]).validate fsBase).fs.lookup
        ((Config.base.requestList [Kind.ipc]).parent_dir_for_namespace
          ipcDescOn.name) = some Entry.dir ∧
      (fsBase.lookup ((Config.base.requestList [Kind.ipc]).parent_dir_for_namespace
          ipcDescOn.name) = none →
        (Config.base.requestList [Kind.ipc]).parent_dir_for_namespace ipcDescOn.name ∈
          ((Config.base.requestList [Kind.ipc]).validate fsBase).created)) ∧
    ((Config.base.requestList [Kind.uts]).validate fsUtsnsFile).err ≠ none :=
  ⟨(validate_parent_dirs (Config.base.requestList [Kind.ipc]) fsBase).1
      (by decide) ipcDescOn (by decide),
   (validate_parent_dirs (Config.base.requestList [Kind.uts]) fsUtsnsFile).2
      utsDescOn (by decide) (by decide)⟩


/-- What a successful validation implies: some kind was requested, the
target directory is a directory, and the result components come from the
per-kind subdirectory loop, which finished without error. -/
theorem validate_ok_cases (c : Config) (fs : Fs) (h : (c.validate fs).err = none) :
    ¬(c.setEnabled.namespaces.intoIter.all (fun x => !x.enabled) = true) ∧
    fs.lookup c.setEnabled.dir = some Entry.dir ∧
    ∃ fs2 created2,
      c.validate fs = ⟨c.setEnabled, fs2, created2, none⟩ ∧
      validateLoop c.setEnabled
          (c.setEnabled.namespaces.intoIter.filter (fun x => x.enabled)) fs [] =
        (fs2, created2, none) := by
  unfold Config.validate at h
  split at h
  · exact absurd h (by simp)
  split at h
  · exact absurd h (by simp)
  split at h
  · exact absurd h (by simp)
  rename_i hc1 hc2 hc3
  split at h
  rename_i fs2 created2 err2 heq
  have herr : err2 = none := h
  subst herr
  refine ⟨hc1, not_not.mp hc3, fs2, created2, ?_, heq⟩
  unfold Config.validate
  rw [if_neg hc1, if_neg hc2, if_neg hc3, heq]

/-- C8: `validate` is idempotent on a valid configuration — re-running it
on the configuration and filesystem a successful call produced succeeds
again, changes nothing, and creates no directory (the check-then-create
finds every per-kind subdirectory already present). -/
theorem validate_idempotent (c : Config) (fs : Fs)
    (h : (c.validate fs).err = none) :
    (c.validate fs).config.validate (c.validate fs).fs =
      ⟨(c.validate fs).config, (c.validate fs).fs, [], none⟩ := by
  obtain ⟨hc1, hdirfs, fs2, created2, hval, hloop⟩ := validate_ok_cases c fs h
  rw [hval]
  simp only []
  have hdirfs2 : fs2.lookup c.setEnabled.dir = some Entry.dir := by
    have := validateLoop_preserves_dir c.setEnabled
      (c.setEnabled.namespaces.intoIter.filter (fun x => x.enabled)) fs []
      c.setEnabled.dir hdirfs
    rw [hloop] at this
    exact this
  have hall : ∀ x ∈ c.setEnabled.namespaces.intoIter.filter (fun n => n.enabled),
      fs2.lookup (c.setEnabled.parent_dir_for_namespace x.name) = some Entry.dir :=
    validateLoop_ok_dirs c.setEnabled _ fs fs2 [] created2 hloop
  have hnex : ¬(fs2.pathExists c.setEnabled.setEnabled.dir = false) := by
    rw [Config.setEnabled_setEnabled]
    simp [Fs.pathExists, hdirfs2]
  have hndir : ¬(fs2.lookup c.setEnabled.setEnabled.dir ≠ some Entry.dir) := by
    rw [Config.setEnabled_setEnabled]
    simp [hdirfs2]
  have hc1b : ¬(c.setEnabled.setEnabled.namespaces.intoIter.all
      (fun x => !x.enabled) = true) := by
    rw [Config.setEnabled_setEnabled]
    exact hc1
  unfold Config.validate
  rw [if_neg hc1b, if_neg hnex, if_neg hndir, Config.setEnabled_setEnabled,
    validateLoop_noop c.setEnabled _ fs2 [] hall]

/-- Witness for C8 at a concrete configuration requesting ipc and uts. -/
theorem validate_idempotent_witness :
    ((Config.base.requestList [Kind.ipc, Kind.uts]).validate fsBase).config.validate
        ((Config.base.requestList [Kind.ipc, Kind.uts]).validate fsBase).fs =
      ⟨((Config.base.requestList [Kind.ipc, Kind.uts]).validate fsBase).config,
        ((Config.base.requestList [Kind.ipc, Kind.uts]).validate fsBase).fs, [], none⟩ :=
  validate_idempotent (Config.base.requestList [Kind.ipc, Kind.uts]) fsBase (by decide)

/-! ### Claim theorems about the bind phase -/

/-- C3: when any entry already occupies the bind target, binding that
kind fails with the already-exists error (the file is opened with
`O_CREAT | O_EXCL`), the filesystem is left untouched and in particular
the bind-mount step is not attempted. -/
theorem bind_namespace_already_exists (c : Config) (mountOk : FsPath → Bool)
    (name : String) (fs : Fs)
    (h : fs.pathExists (Pinns.bindPath c name) = true) :
    Pinns.bind_namespace c mountOk name fs = (fs, some BindError.alreadyExists) ∧
    (Pinns.bind_namespace c mountOk name fs).1.mounts = fs.mounts := by
  unfold Pinns.bind_namespace
  rw [if_pos h]
  exact ⟨rfl, rfl⟩

/-- Concrete filesystem where the ipc bind target pre-exists as a file. -/
def fsIpcFile : Fs := ⟨[(["tmp"], Entry.dir), (["tmp", "ipc"], Entry.file)], []⟩

/-- Witness for C3: tmp/ipc pre-exists, so binding ipc fails and mounts
nothing. -/
theorem bind_namespace_already_exists_witness :
    Pinns.bind_namespace (Config.base.requestList [Kind.ipc]) (fun _ => true)
        "ipc" fsIpcFile = (fsIpcFile, some BindError.alreadyExists) ∧
    (Pinns.bind_namespace (Config.base.requestList [Kind.ipc]) (fun _ => true)
        "ipc" fsIpcFile).1.mounts = fsIpcFile.mounts :=
  bind_namespace_already_exists (Config.base.requestList [Kind.ipc]) (fun _ => true)
    "ipc" fsIpcFile (by decide)

/-- A single bind only adds filesystem state, never removes it. -/
theorem bind_namespace_sublist (c : Config) (mountOk : FsPath → Bool)
    (name : String) (fs : Fs) :
    List.Sublist fs.entries (Pinns.bind_namespace c mountOk name fs).1.entries ∧
    List.Sublist fs.mounts (Pinns.bind_namespace c mountOk name fs).1.mounts := by
  unfold Pinns.bind_namespace
  split
  · exact ⟨List.Sublist.refl _, List.Sublist.refl _⟩
  split
  · exact ⟨List.sublist_cons_self _ _, List.sublist_cons_self _ _⟩
  · exact ⟨List.sublist_cons_self _ _, List.Sublist.refl _⟩

/-- The bind chain only adds filesystem state, never removes it. -/
theorem runBinds_sublist (c : Config) (mountOk : FsPath → Bool) :
    ∀ (names : List String) (fs : Fs),
      List.Sublist fs.entries (Pinns.runBinds c mountOk names fs).1.entries ∧
      List.Sublist fs.mounts (Pinns.runBinds c mountOk names fs).1.mounts := by
  intro names
  induction names with
  | nil => intro fs; exact ⟨List.Sublist.refl _, List.Sublist.refl _⟩
  | cons hd rest ih =>
    intro fs
    unfold Pinns.runBinds
    rcases hb : Pinns.bind_namespace c mountOk hd fs with ⟨fs1, err1⟩
    have hsub := bind_namespace_sublist c mountOk hd fs
    rw [hb] at hsub
    cases err1 with
    | none =>
      simp only []
      exact ⟨hsub.1.trans (ih fs1).1, hsub.2.trans (ih fs1).2⟩
    | some e =>
      simp only []
      exact hsub

/-- A successful single bind leaves the created file and the recorded
mount in the filesystem. -/
theorem bind_namespace_success_mem (c : Config) (mountOk : FsPath → Bool)
    (name : String) (fs fs1 : Fs)
    (h : Pinns.bind_namespace c mountOk name fs = (fs1, none)) :
    (Pinns.bindPath c name, Entry.file) ∈ fs1.entries ∧
    (nsPath name, Pinns.bindPath c name) ∈ fs1.mounts := by
  unfold Pinns.bind_namespace at h
  split at h
  · exact absurd (congrArg (fun t => t.2) h) (by simp)
  split at h
  · have hfs : fs1 = ((fs.create_file (Pinns.bindPath c name)).addMount
        (nsPath name) (Pinns.bindPath c name)) := (congrArg (fun t => t.1) h).symm
    subst hfs
    exact ⟨List.mem_cons_self _ _, List.mem_cons_self _ _⟩
  · exact absurd (congrArg (fun t => t.2) h) (by simp)

/-- When the bind chain stops with an error, the attempted kinds form an
initial segment of the given sequence ending at the failing kind, and the
file and mount of every earlier, successful bind are still present in the
final filesystem. -/
theorem runBinds_fail (c : Config) (mountOk : FsPath → Bool) :
    ∀ (names : List String) (fs fs2 : Fs) (p : List String) (n : String) (e : BindError),
      Pinns.runBinds c mountOk names fs = (fs2, p, some (n, e)) →
      ∃ p0 rest, names = p0 ++ [n] ++ rest ∧ p = p0 ++ [n] ∧
        ∀ m ∈ p0, (Pinns.bindPath c m, Entry.file) ∈ fs2.entries ∧
          (nsPath m, Pinns.bindPath c m) ∈ fs2.mounts := by
  intro names
  induction names with
  | nil =>
    intro fs fs2 p n e h
    exact absurd (congrArg (fun t => t.2.2) h) (by simp [Pinns.runBinds])
  | cons hd rest ih =>
    intro fs fs2 p n e h
    unfold Pinns.runBinds at h
    rcases hb : Pinns.bind_namespace c mountOk hd fs with ⟨fs1, err1⟩
    rw [hb] at h
    cases err1 with
    | none =>
      simp only [] at h
      rcases hr : Pinns.runBinds c mountOk rest fs1 with ⟨fs2b, pb, resb⟩
      rw [hr] at h
      dsimp only at h
      rw [Prod.mk.injEq, Prod.mk.injEq] at h
      obtain ⟨h1, h2, h3⟩ := h
      rw [h1, h3] at hr
      obtain ⟨p0b, restb, hnames, hpb, hmem⟩ := ih fs1 fs2 pb n e hr
      refine ⟨hd :: p0b, restb, ?_, ?_, ?_⟩
      · rw [hnames]; rfl
      · rw [← h2, hpb]; rfl
      · intro m hm
        rcases List.mem_cons.mp hm with hmhd | hmp0
        · subst hmhd
          have hsm := bind_namespace_success_mem c mountOk m fs fs1 hb
          have hsub := runBinds_sublist c mountOk rest fs1
          rw [hr] at hsub
          exact ⟨hsub.1.subset hsm.1, hsub.2.subset hsm.2⟩
        · exact hmem m hmp0
    | some e1 =>
      dsimp only at h
      rw [Prod.mk.injEq, Prod.mk.injEq] at h
      obtain ⟨h1, h2, h3⟩ := h
      obtain ⟨hn, he⟩ : hd = n ∧ e1 = e := by simpa using h3
      subst h1
      subst hn
      refine ⟨[], rest, rfl, ?_, ?_⟩
      · rw [← h2]; rfl
      · intro m hm
        exact absurd hm (List.not_mem_nil m)

/-- C2: when binding the requested kinds in the fixed order fails at some
kind, the kinds after it are never attempted (the attempted list is an
initial segment of the request sequence ending at the failing kind), and
nothing undoes an earlier success: the file and mount created by every
kind bound before the failure are still present in the final filesystem. -/
theorem bind_fail_fast_no_rollback (c : Config) (mountOk : FsPath → Bool)
    (fs fs2 : Fs) (p : List String) (n : String) (e : BindError)
    (h : Pinns.bind_namespaces c mountOk fs = (fs2, p, some (n, e))) :
    ∃ p0 rest, Pinns.bindSeq c = p0 ++ [n] ++ rest ∧ p = p0 ++ [n] ∧
      ∀ m ∈ p0, (Pinns.bindPath c m, Entry.file) ∈ fs2.entries ∧
        (nsPath m, Pinns.bindPath c m) ∈ fs2.mounts :=
  runBinds_fail c mountOk (Pinns.bindSeq c) fs fs2 p n e h

/-- Concrete start state for the C2 witness: the target directory plus a
pre-existing file at the uts bind target. -/
def fsUtsPre : Fs := ⟨[(["tmp"], Entry.dir), (["tmp", "uts"], Entry.file)], []⟩

/-- Concrete final state for the C2 witness: ipc bound (file and mount),
uts untouched. -/
def fsUtsPreOut : Fs :=
  ⟨[(["tmp", "ipc"], Entry.file), (["tmp"], Entry.dir), (["tmp", "uts"], Entry.file)],
    [(["proc", "self", "ns", "ipc"], ["tmp", "ipc"])]⟩

/-- Witness for C2: requesting ipc and uts with tmp/uts pre-existing —
ipc binds, uts fails, the ipc file and mount remain. -/
theorem bind_fail_fast_no_rollback_witness :
    ∃ p0 rest,
      Pinns.bindSeq (Config.base.requestList [Kind.ipc, Kind.uts]) = p0 ++ ["uts"] ++ rest ∧
      ["ipc", "uts"] = p0 ++ ["uts"] ∧
      ∀ m ∈ p0,
        (Pinns.bindPath (Config.base.requestList [Kind.ipc, Kind.uts]) m, Entry.file) ∈
          fsUtsPreOut.entries ∧
        (nsPath m, Pinns.bindPath (Config.base.requestList [Kind.ipc, Kind.uts]) m) ∈
          fsUtsPreOut.mounts :=
  bind_fail_fast_no_rollback (Config.base.requestList [Kind.ipc, Kind.uts]) (fun _ => true)
    fsUtsPre fsUtsPreOut ["ipc", "uts"] "uts" BindError.alreadyExists (by decide)

/-! ### Claim theorems about bind targets and unshare -/

/-- Configuration requesting ipc with the pin file name ns1. -/
def cNs1 : Config := { Config.base.requestList [Kind.ipc] with filename := "ns1" }

/-- C1 (code bug): `bind_namespace` joins the target directory with the
bare kind name, using neither the per-kind `<kind>ns` subdirectory that
`validate` establishes nor the configured file name — contradicting
config.rs's own doc comment, which states the pin target is
`dir`/`namespace.name`ns/`filename`.  With dir = tmp, filename = ns1 and
ipc requested, the code computes tmp/ipc while the documented target is
tmp/ipcns/ns1; a validate-then-bind run mounts onto tmp/ipc and leaves
nothing at tmp/ipcns/ns1, even though validate created tmp/ipcns. -/
theorem bindPath_ignores_subdir_and_filename :
    Pinns.bindPath cNs1 "ipc" = ["tmp", "ipc"] ∧
    cNs1.parent_dir_for_namespace "ipc" ++ [cNs1.filename] = ["tmp", "ipcns", "ns1"] ∧
    Pinns.bindPath cNs1 "ipc" ≠ cNs1.parent_dir_for_namespace "ipc" ++ [cNs1.filename] ∧
    (cNs1.validate fsBase).created = [["tmp", "ipcns"]] ∧
    (Pinns.bind_namespaces cNs1 (fun _ => true) ((cNs1.validate fsBase).fs)).1.lookup
      ["tmp", "ipcns", "ns1"] = none ∧
    (nsPath "ipc", ["tmp", "ipc"]) ∈
      (Pinns.bind_namespaces cNs1 (fun _ => true) ((cNs1.validate fsBase).fs)).1.mounts := by
  refine ⟨by decide, by decide, by decide, by decide, by decide, by decide⟩

/-- The unshare if-chain of lib.rs as a function of the request booleans
alone (the user read is constantly false, as in `Config.user`). -/
def composeFlags (cg ip nt pd ut : Bool) : Nat :=
  let f := 0
  let f := if cg then f ||| CLONE_NEWCGROUP else f
  let f := if ip then f ||| CLONE_NEWIPC else f
  let f := if nt then f ||| CLONE_NEWNET else f
  let f := if pd then f ||| CLONE_NEWPID else f
  let f := if false then f ||| CLONE_NEWUSER else f
  let f := if ut then f ||| CLONE_NEWUTS else f
  f

/-- The requested kind-name sequence as a function of the request
booleans alone. -/
def seqNames (cg ip nt pd ut : Bool) : List String :=
  declOrder.filter (fun n =>
    if n = "cgroup" then cg
    else if n = "ipc" then ip
    else if n = "net" then nt
    else if n = "pid" then pd
    else if n = "user" then false
    else if n = "uts" then ut
    else false)

/-- The composed unshare bitmask equals the left fold of bitwise OR over
the clone flags of the requested kinds, taken in the same fixed sequence
the bind phase processes. -/
theorem unshareFlags_eq_fold (b : Config) :
    Pinns.unshareFlags b =
      ((Pinns.bindSeq b).map cloneFlagOf).foldl (fun a f => a ||| f) 0 := by
  rcases b with ⟨d, fn, cg, ip, nt, pd, ut, ns⟩
  show composeFlags cg ip nt pd ut =
    ((seqNames cg ip nt pd ut).map cloneFlagOf).foldl (fun a f => a ||| f) 0
  cases cg <;> cases ip <;> cases nt <;> cases pd <;> cases ut <;> decide

/-- After applying a request list, each request boolean is set exactly
when its kind occurs in the list (or was already set). -/
theorem Config.requestList_flags (ks : List Kind) : ∀ c : Config,
    (c.requestList ks).cgroup = (c.cgroup || decide (Kind.cgroup ∈ ks)) ∧
    (c.requestList ks).ipc = (c.ipc || decide (Kind.ipc ∈ ks)) ∧
    (c.requestList ks).net = (c.net || decide (Kind.net ∈ ks)) ∧
    (c.requestList ks).pid = (c.pid || decide (Kind.pid ∈ ks)) ∧
    (c.requestList ks).uts = (c.uts || decide (Kind.uts ∈ ks)) := by
  induction ks with
  | nil => intro c; simp [Config.requestList]
  | cons k rest ih =>
    intro c
    obtain ⟨h1, h2, h3, h4, h5⟩ := ih (c.requestKind k)
    have hfold : c.requestList (k :: rest) = (c.requestKind k).requestList rest := rfl
    rw [hfold]
    cases k <;>
      simp_all [Config.requestKind, List.mem_cons, Bool.or_assoc, Bool.or_comm]

/-- The unshare bitmask only depends on the request booleans. -/
theorem unshareFlags_congr (c1 c2 : Config)
    (h1 : c1.cgroup = c2.cgroup) (h2 : c1.ipc = c2.ipc) (h3 : c1.net = c2.net)
    (h4 : c1.pid = c2.pid) (h5 : c1.uts = c2.uts) :
    Pinns.unshareFlags c1 = Pinns.unshareFlags c2 := by
  unfold Pinns.unshareFlags
  rw [h1, h2, h3, h4, h5]
  simp only [Config.user]

/-- The requested kind-name sequence only depends on the request
booleans. -/
theorem bindSeq_congr (c1 c2 : Config)
    (h1 : c1.cgroup = c2.cgroup) (h2 : c1.ipc = c2.ipc) (h3 : c1.net = c2.net)
    (h4 : c1.pid = c2.pid) (h5 : c1.uts = c2.uts) :
    Pinns.bindSeq c1 = Pinns.bindSeq c2 := by
  unfold Pinns.bindSeq
  have : Config.flagOf c1 = Config.flagOf c2 := by
    funext n
    unfold Config.flagOf
    rw [h1, h2, h3, h4, h5]
    simp only [Config.user]
  rw [this]

/-- Two request lists with the same members produce the same request
booleans. -/
theorem requestList_same_members (c : Config) (l1 l2 : List Kind)
    (h : ∀ k, k ∈ l1 ↔ k ∈ l2) :
    (c.requestList l1).cgroup = (c.requestList l2).cgroup ∧
    (c.requestList l1).ipc = (c.requestList l2).ipc ∧
    (c.requestList l1).net = (c.requestList l2).net ∧
    (c.requestList l1).pid = (c.requestList l2).pid ∧
    (c.requestList l1).uts = (c.requestList l2).uts := by
  obtain ⟨a1, a2, a3, a4, a5⟩ := Config.requestList_flags l1 c
  obtain ⟨b1, b2, b3, b4, b5⟩ := Config.requestList_flags l2 c
  refine ⟨?_, ?_, ?_, ?_, ?_⟩ <;>
    simp only [a1, a2, a3, a4, a5, b1, b2, b3, b4, b5, decide_eq_decide.mpr (h _)]

/-- C4: one run composes exactly one bitmask — the OR of the clone flag
of every requested kind, folded in the fixed declaration order — and
issues exactly one unshare call carrying it; the composed flags depend
only on the set of requested kinds, so requesting the same kinds in a
different order yields the same kernel call. -/
theorem unshare_one_call_or_of_flags (c : Config) (l1 l2 : List Kind)
    (h : ∀ k, k ∈ l1 ↔ k ∈ l2) :
    (Pinns.unshareCalls (c.requestList l1)).length = 1 ∧
    Pinns.unshareCalls (c.requestList l1) = [Pinns.unshareFlags (c.requestList l1)] ∧
    Pinns.unshareFlags (c.requestList l1) =
      ((Pinns.bindSeq (c.requestList l1)).map cloneFlagOf).foldl (fun a f => a ||| f) 0 ∧
    Pinns.unshareCalls (c.requestList l1) = Pinns.unshareCalls (c.requestList l2) := by
  obtain ⟨e1, e2, e3, e4, e5⟩ := requestList_same_members c l1 l2 h
  refine ⟨rfl, rfl, unshareFlags_eq_fold _, ?_⟩
  unfold Pinns.unshareCalls
  rw [unshareFlags_congr (c.requestList l1) (c.requestList l2) e1 e2 e3 e4 e5]

/-- Witness for C4: requesting ipc then uts and uts then ipc produce the
same single unshare call. -/
theorem unshare_one_call_or_of_flags_witness :
    (Pinns.unshareCalls (Config.base.requestList [Kind.ipc, Kind.uts])).length = 1 ∧
    Pinns.unshareCalls (Config.base.requestList [Kind.ipc, Kind.uts]) =
      [Pinns.unshareFlags (Config.base.requestList [Kind.ipc, Kind.uts])] ∧
    Pinns.unshareFlags (Config.base.requestList [Kind.ipc, Kind.uts]) =
      ((Pinns.bindSeq (Config.base.requestList [Kind.ipc, Kind.uts])).map
        cloneFlagOf).foldl (fun a f => a ||| f) 0 ∧
    Pinns.unshareCalls (Config.base.requestList [Kind.ipc, Kind.uts]) =
      Pinns.unshareCalls (Config.base.requestList [Kind.uts, Kind.ipc]) :=
  unshare_one_call_or_of_flags Config.base [Kind.ipc, Kind.uts] [Kind.uts, Kind.ipc]
    (by intro k; cases k <;> simp [List.mem_cons])

/-- C7: the kinds processed by the bind phase form a sequence that
follows the fixed declaration order (cgroup, ipc, net, pid, user, uts):
it is a sublist of that order and is determined solely by the set of
requested kinds — hence stable across repeated runs and independent of
the order kinds were requested in; the registry iterator yields its
descriptors in the same fixed declaration order (names cgroup, ipc, net,
pid, uts) whatever the enabled flags, and the unshare bitmask is folded
over the very same requested sequence. -/
theorem bind_order_fixed (c : Config) (l1 l2 : List Kind)
    (h : ∀ k, k ∈ l1 ↔ k ∈ l2) :
    List.Sublist (Pinns.bindSeq c) declOrder ∧
    Pinns.bindSeq (c.requestList l1) = Pinns.bindSeq (c.requestList l2) ∧
    (∀ b : Config, b.namespaces = Namespaces.default →
      (b.setEnabled.namespaces.intoIter.map (fun x => x.name)) =
        ["cgroup", "ipc", "net", "pid", "uts"]) ∧
    Pinns.unshareFlags c =
      ((Pinns.bindSeq c).map cloneFlagOf).foldl (fun a f => a ||| f) 0 := by
  obtain ⟨e1, e2, e3, e4, e5⟩ := requestList_same_members c l1 l2 h
  refine ⟨List.filter_sublist _, bindSeq_congr _ _ e1 e2 e3 e4 e5, ?_,
    unshareFlags_eq_fold c⟩
  intro b hb
  simp [Config.setEnabled, Namespaces.intoIter, hb, Namespaces.default]

/-- Witness for C7: with ipc and uts requested in either order, the
processed sequence is the same sublist of the declaration order. -/
theorem bind_order_fixed_witness :
    List.Sublist (Pinns.bindSeq ((Config.base.requestList [Kind.ipc, Kind.uts]).requestList
      [Kind.ipc, Kind.uts])) declOrder ∧
    Pinns.bindSeq ((Config.base.requestList [Kind.ipc, Kind.uts]).requestList
        [Kind.ipc, Kind.uts]) =
      Pinns.bindSeq ((Config.base.requestList [Kind.ipc, Kind.uts]).requestList
        [Kind.uts, Kind.ipc]) ∧
    (∀ b : Config, b.namespaces = Namespaces.default →
      (b.setEnabled.namespaces.intoIter.map (fun x => x.name)) =
        ["cgroup", "ipc", "net", "pid", "uts"]) ∧
    Pinns.unshareFlags ((Config.base.requestList [Kind.ipc, Kind.uts]).requestList
        [Kind.ipc, Kind.uts]) =
      ((Pinns.bindSeq ((Config.base.requestList [Kind.ipc, Kind.uts]).requestList
        [Kind.ipc, Kind.uts])).map cloneFlagOf).foldl (fun a f => a ||| f) 0 :=
  bind_order_fixed (Config.base.requestList [Kind.ipc, Kind.uts])
    [Kind.ipc, Kind.uts] [Kind.uts, Kind.ipc]
    (by intro k; cases k <;> simp [List.mem_cons])

/-- C9: the registry holds descriptors for exactly the five kinds cgroup,
ipc, net, pid, uts — none for the user namespace — and the configuration
offers no user request flag, so no obtainable configuration ever puts the
user kind in the bind sequence or the user clone flag in the unshare
bitmask. -/
theorem no_user_namespace :
    (Namespaces.default.intoIter.map (fun x => x.name)) =
      ["cgroup", "ipc", "net", "pid", "uts"] ∧
    (∀ x ∈ Namespaces.default.intoIter, x.name ≠ "user") ∧
    (∀ b : Config, b.user = false) ∧
    (∀ b : Config, "user" ∉ Pinns.bindSeq b) ∧
    (∀ b : Config, Pinns.unshareFlags b &&& CLONE_NEWUSER = 0) := by
  refine ⟨by decide, by decide, fun b => rfl, ?_, ?_⟩
  · intro b hmem
    unfold Pinns.bindSeq at hmem
    have hf := (List.mem_filter.mp hmem).2
    have huser : Config.flagOf b "user" = false := rfl
    rw [huser] at hf
    cases hf
  · intro b
    rcases b with ⟨d, fn, cg, ip, nt, pd, ut, ns⟩
    show composeFlags cg ip nt pd ut &&& CLONE_NEWUSER = 0
    cases cg <;> cases ip <;> cases nt <;> cases pd <;> cases ut <;> decide

/-- Witness for C9 at the ipc descriptor and the empty request. -/
theorem no_user_namespace_witness :
    ({ name := "ipc", clone_flag := CLONE_NEWIPC, enabled := false } : Namespace).name ≠
      "user" ∧
    "user" ∉ Pinns.bindSeq Config.base :=
  ⟨no_user_namespace.2.1 _ (by decide), no_user_namespace.2.2.2.1 Config.base⟩
